import Mathlib

/-!
Verification of the capture-record engine (`src/src-tauri/src/traffic.rs`)
of the ez-shark HTTP traffic-inspection tool.

Rust strings are modelled as Lean `String`s, raw file contents as `List Nat`
(byte values), machine integers as `Nat`/`Int` with explicit wrapping where a
cast can overflow.  External collaborators (the filesystem, the compression
codecs, the `serde_json`/`url`/`cookie`/`shell_words` crates, the clock, the
build-time package version) are modelled as components of an explicit
environment record `Env`; everything else is translated directly from the
source.  Recursions that Rust expresses as loops are written with an explicit
fuel argument (always instantiated with the input length, which suffices
because every step consumes at least one element) so that all definitions
compute by kernel reduction.
-/

namespace EzShark

/-! ## String helpers (models of the Rust std string operations used) -/

/-- Model of Rust `slice::join` / `Vec::join` on strings. -/
def sepJoin (sep : String) : List String → String
  | [] => ""
  | x :: xs => xs.foldl (fun acc y => acc ++ sep ++ y) x

/-- Concatenation of a list of strings (used to state fold shapes). -/
def concatStrs : List String → String
  | [] => ""
  | x :: xs => x ++ concatStrs xs

/-- Fuelled body of `strReplace`; every step consumes at least one character,
so fuel equal to the input length suffices. -/
def strReplaceF : Nat → List Char → List Char → List Char → List Char
  | _, [], _, _ => []
  | 0, s, _, _ => s
  | fuel + 1, c :: rest, pat, rep =>
    if pat ≠ [] ∧ pat.isPrefixOf (c :: rest) then
      rep ++ strReplaceF fuel ((c :: rest).drop pat.length) pat rep
    else
      c :: strReplaceF fuel rest pat rep

/-- Model of Rust `str::replace` (non-overlapping, left to right) on char
lists.  The patterns used in the source are always non-empty. -/
def strReplace (s pat rep : List Char) : List Char :=
  strReplaceF s.length s pat rep

/-- Source `str::replace` on `String`s. -/
def strReplaceS (s pat rep : String) : String :=
  ⟨strReplace s.data pat.data rep.data⟩

/-- Model of Rust `str::strip_suffix`. -/
def stripSuffixStr (s suffix : String) : Option String :=
  if suffix.data.isSuffixOf s.data then
    some ⟨s.data.take (s.data.length - suffix.data.length)⟩
  else none

/-- Model of Rust `str::ends_with`.  Byte-level and char-level suffix tests
agree for the ASCII suffixes the source uses. -/
def endsWithStr (s suffix : String) : Bool :=
  suffix.data.isSuffixOf s.data

/-- Model of Rust `str::split_once` on char lists. -/
def splitOnceList : List Char → Char → Option (List Char × List Char)
  | [], _ => none
  | x :: xs, c =>
    if x = c then some ([], xs)
    else (splitOnceList xs c).map (fun p => (x :: p.1, p.2))

/-- Model of Rust `str::split_once`. -/
def splitOnce (s : String) (c : Char) : Option (String × String) :=
  (splitOnceList s.data c).map (fun p => (⟨p.1⟩, ⟨p.2⟩))

/-! ## UTF-8 codec

Model of Rust `std::str::from_utf8` / `tokio::fs::read_to_string` validation:
a strict UTF-8 decoder (rejecting overlong forms, surrogates and out-of-range
code points) producing the decoded characters. -/

def utf8Cont (b : Nat) : Bool := 0x80 ≤ b ∧ b ≤ 0xBF

/-- Decode one UTF-8 scalar from the front of a byte list. -/
def utf8DecodeChar : List Nat → Option (Nat × List Nat)
  | [] => none
  | b0 :: rest =>
    if b0 ≤ 0x7F then some (b0, rest)
    else if 0xC2 ≤ b0 ∧ b0 ≤ 0xDF then
      match rest with
      | b1 :: r =>
        if utf8Cont b1 then some ((b0 - 0xC0) * 0x40 + (b1 - 0x80), r) else none
      | [] => none
    else if 0xE0 ≤ b0 ∧ b0 ≤ 0xEF then
      match rest with
      | b1 :: b2 :: r =>
        let lo1 := if b0 = 0xE0 then 0xA0 else 0x80
        let hi1 := if b0 = 0xED then 0x9F else 0xBF
        if lo1 ≤ b1 ∧ b1 ≤ hi1 ∧ utf8Cont b2 then
          some ((b0 - 0xE0) * 0x1000 + (b1 - 0x80) * 0x40 + (b2 - 0x80), r)
        else none
      | _ => none
    else if 0xF0 ≤ b0 ∧ b0 ≤ 0xF4 then
      match rest with
      | b1 :: b2 :: b3 :: r =>
        let lo1 := if b0 = 0xF0 then 0x90 else 0x80
        let hi1 := if b0 = 0xF4 then 0x8F else 0xBF
        if lo1 ≤ b1 ∧ b1 ≤ hi1 ∧ utf8Cont b2 ∧ utf8Cont b3 then
          some ((b0 - 0xF0) * 0x40000 + (b1 - 0x80) * 0x1000 +
                (b2 - 0x80) * 0x40 + (b3 - 0x80), r)
        else none
      | _ => none
    else none

/-- Fuel-driven decoding loop; `utf8DecodeChar` consumes at least one byte,
so fuel equal to the list length always suffices. -/
def utf8DecodeList : Nat → List Nat → Option (List Char)
  | _, [] => some []
  | 0, _ :: _ => none
  | fuel + 1, l =>
    match utf8DecodeChar l with
    | none => none
    | some (c, rest) => (utf8DecodeList fuel rest).map (Char.ofNat c :: ·)

/-- Model of `std::str::from_utf8`: `some` exactly on valid UTF-8 input. -/
def utf8Decode (l : List Nat) : Option String :=
  (utf8DecodeList l.length l).map String.mk

/-- UTF-8 encoding of one scalar value. -/
def utf8EncodeChar (c : Nat) : List Nat :=
  if c ≤ 0x7F then [c]
  else if c ≤ 0x7FF then [0xC0 + c / 0x40, 0x80 + c % 0x40]
  else if c ≤ 0xFFFF then
    [0xE0 + c / 0x1000, 0x80 + (c / 0x40) % 0x40, 0x80 + c % 0x40]
  else
    [0xF0 + c / 0x40000, 0x80 + (c / 0x1000) % 0x40,
     0x80 + (c / 0x40) % 0x40, 0x80 + c % 0x40]

/-- Model of Rust `str::as_bytes` (the UTF-8 bytes of a string). -/
def strBytes (s : String) : List Nat :=
  (s.data.map (fun c => utf8EncodeChar c.toNat)).flatten

/-! ## JSON model (`serde_json::Value`) -/

/-- Model of `serde_json::Value`.  All numbers appearing in the source are
integral (`u16`, `u64`, `i64`, `isize`), so `Int` payloads suffice. -/
inductive Json where
  | null
  | bool (b : Bool)
  | num (n : Int)
  | str (s : String)
  | arr (elems : List Json)
  | obj (fields : List (String × Json))

def lookupAssoc : List (String × Json) → String → Option Json
  | [], _ => none
  | (k, v) :: rest, key => if k = key then some v else lookupAssoc rest key

/-- Field access on a JSON object (`value["key"]`), `null` when absent. -/
def jGet (j : Json) (key : String) : Json :=
  match j with
  | Json.obj fields => (lookupAssoc fields key).getD Json.null
  | _ => Json.null

def setAssoc : List (String × Json) → String → Json → List (String × Json)
  | [], key, v => [(key, v)]
  | (k, v') :: rest, key, v =>
    if k = key then (key, v) :: rest else (k, v') :: setAssoc rest key v

/-- Model of `serde_json` index assignment `value["key"] = v`: replaces the
field if present, inserts it otherwise (no claim observes serde's key
ordering, so insertion order is used). -/
def Json.setField : Json → String → Json → Json
  | Json.obj fields, key, v => Json.obj (setAssoc fields key v)
  | j, _, _ => j

/-! ## Data model -/

/-- Source `TransactionState` (traffic.rs lines 17-26). -/
inductive TransactionState where
  | Pending
  | Requesting
  | Responding
  | ResponseDone
  | Completed
  | Failed
  | Aborted
  deriving DecidableEq, Repr

/-- Source `Header`. -/
structure Header where
  name : String
  value : String
  deriving DecidableEq, Repr

/-- Source `Headers`: ordered items plus the precomputed approximate wire size. -/
structure Headers where
  items : List Header
  size : Nat
  deriving DecidableEq, Repr

/-- Source `Body`: a resolved payload. -/
structure Body where
  encode : String
  value : String
  size : Nat
  deriving DecidableEq, Repr

/-- One row of the byte-level hex viewer (`BodyHex`). -/
structure BodyHex where
  offset_address : Nat
  hex : List Nat
  character_view : String
  deriving DecidableEq, Repr

/-- The result of the external `cookie::Cookie::parse` call, as consumed by
`har_res_cookies`: name/value plus the optional attributes the source reads.
`expires` is the already-RFC3339-formatted expiry, present only when the
cookie carries a fixed datetime and formatting succeeded. -/
structure ParsedCookie where
  name : String
  value : String
  path : Option String
  domain : Option String
  expires : Option String
  http_only : Option Bool
  secure : Option Bool

/-- Source `Traffic`: the transaction record.  Timestamps are modelled as integer
milliseconds; the process-wide id counter is modelled by passing the
allocated id to `Traffic.new`. -/
structure Traffic where
  gid : Nat
  session_id : String
  uri : String
  method : String
  transaction_state : TransactionState
  req_headers : Option Headers
  req_body_file : Option String
  req_body_hex : Option (List BodyHex)
  status : Option Nat
  http_version : Option String
  res_headers : Option Headers
  res_body_file : Option String
  res_body_hex : Option (List BodyHex)
  res_body_size : Option Nat
  websocket_id : Option Nat
  start_time : Option Int
  end_time : Option Int
  error : Option String
  valid : Bool

/-- The external collaborators consumed by traffic.rs (see spec §6): the
`ENCODING_EXTS` suffix table and decompression routines from `utils.rs`, the
filesystem, base64 and data-URL helpers, and the `shell_words` / `f64::parse`
/ `url` / `cookie` / `time`-formatting / `serde_json` library calls. -/
structure Env where
  encoding_exts : List (String × String)
  uncompress_data : String → String → Option (List Nat)
  uncompress_file : String → String → String → Bool
  fs_read : String → Option (List Nat)
  base64_encode : List Nat → String
  add_data_url : String → String
  shell_quote : String → String
  parse_f64 : String → Bool
  url_query : String → Option (List (String × String))
  cookie_parse : String → Option ParsedCookie
  format_rfc3339 : Int → Option String
  json_pretty : Json → Except String String
  traffic_to_json : Traffic → Json
  to_md_lang : String → String
  cargo_pkg_version : String

/-! ## Hex formatter (`bytes_to_hex_structs`, `BodyHex::new`,
`string_to_body_hex`) -/

/-- The character used in the character view for byte `b`: printable ASCII
bytes map to themselves, everything else to a space. -/
def viewChar (b : Nat) : Char :=
  if 0x20 ≤ b ∧ b ≤ 0x7E then Char.ofNat b else ' '

/-- Source `BodyHex::new`. -/
def BodyHex.new (offset_address : Nat) (hex : List Nat) : BodyHex :=
  { offset_address := offset_address
    hex := hex
    character_view := ⟨hex.map viewChar⟩ }

/-- The `chunks(16)` loop shared by `bytes_to_hex_structs` and
`string_to_body_hex` (both walk 16-byte chunks with an offset stepping by
16); fuelled, one chunk per fuel unit. -/
def hexGo : Nat → List Nat → Nat → List BodyHex
  | _, [], _ => []
  | 0, _ :: _, _ => []
  | fuel + 1, c :: rest, off =>
    BodyHex.new off ((c :: rest).take 16) :: hexGo fuel ((c :: rest).drop 16) (off + 16)

/-- Source `bytes_to_hex_structs`. -/
def bytes_to_hex_structs (bytes : List Nat) : List BodyHex :=
  hexGo bytes.length bytes 0

/-- Source `string_to_body_hex` (the same loop over the string's UTF-8 bytes). -/
def string_to_body_hex (s : String) : List BodyHex :=
  hexGo (strBytes s).length (strBytes s) 0

/-! ## Body resolver (`Body::read` and constructors) -/

/-- The `ENCODING_EXTS.find_map(|(encoding, ext)| path.strip_suffix(ext).map(|_| encoding))`
expression in `Body::read`. -/
def findEncoding (exts : List (String × String)) (path : String) : Option String :=
  exts.findSome? (fun p => (stripSuffixStr path p.2).map (fun _ => p.1))

/-- The `ENCODING_EXTS.find_map(|(encoding, ext)| path.strip_suffix(ext).map(|v| (v, encoding)))`
expression in `Traffic::uncompress_res_file`. -/
def findEncodingStrip (exts : List (String × String)) (path : String) :
    Option (String × String) :=
  exts.findSome? (fun p => (stripSuffixStr path p.2).map (fun v => (v, p.1)))

/-- Source `Body::text`: `text.len()` is the byte length of the string. -/
def Body.text (text : String) : Body :=
  { encode := "utf8", value := text, size := text.utf8ByteSize }

/-- Source `Body::path`. -/
def Body.path (path : String) : Body :=
  { encode := "path", value := path, size := 0 }

/-- Source `Body::bytes`. -/
def Body.bytes (env : Env) (data : List Nat) : Body :=
  match utf8Decode data with
  | some text => Body.text text
  | none =>
    { encode := "base64"
      value := env.add_data_url (env.base64_encode data)
      size := data.length }

/-- Source `Body::is_utf8`. -/
def Body.is_utf8 (b : Body) : Bool := b.encode = "utf8"

/-- Source `Body::read`.  `fs_read` returning `none` models any read failure whose
kind is not `InvalidData` (e.g. a missing file); a successful read of invalid
UTF-8 corresponds to `read_to_string` failing with `InvalidData`. -/
def Body.read (env : Env) (path? : Option String) (binary_in_base64 : Bool) :
    Option Body :=
  match path? with
  | none => none
  | some path =>
    match findEncoding env.encoding_exts path with
    | some encoding =>
      match env.uncompress_data encoding path with
      | none => none
      | some data =>
        if data = [] then none
        else if binary_in_base64 then some (Body.bytes env data)
        else
          match utf8Decode data with
          | some text => some (Body.text text)
          | none => some (Body.path path)
    | none =>
      if binary_in_base64 then
        match env.fs_read path with
        | none => none
        | some data => if data = [] then none else some (Body.bytes env data)
      else
        match env.fs_read path with
        | none => none
        | some data =>
          match utf8Decode data with
          | some text => if text = "" then none else some (Body.bytes env data)
          | none => some (Body.bytes env data)

/-! ## Header collection rendering (`Headers::to_json`,
`get_header_value`, `extract_mime`) -/

/-- One iteration of the `Headers::to_json` loop; the state is
`(json_str, cookies, first_item)`. -/
def toJsonStep (env : Env) : String × List String × Bool → Header →
    String × List String × Bool
  | (json_str, cookies, first_item), item =>
    if item.name = "cookie" then
      (json_str, cookies ++ [strReplaceS item.value "\"" "\\\""], first_item)
    else
      let value := strReplaceS (strReplaceS item.value "\"" "\\\"") "\\\\" "\\"
      let formatted_value :=
        if env.parse_f64 value ∨ value = "true" ∨ value = "false" ∨ value = "null"
        then value
        else "\"" ++ value ++ "\""
      let json_str := if first_item then json_str else json_str ++ ",\n"
      (json_str ++ "  \"" ++ item.name ++ "\": " ++ formatted_value, cookies, false)

/-- Source `Headers::to_json`. -/
def Headers.to_json (env : Env) (hs : Headers) : String :=
  let st := hs.items.foldl (toJsonStep env) ("\x7b\n", [], true)
  let json_str :=
    if st.2.1 = [] then st.1
    else
      (if st.2.2 then st.1 else st.1 ++ ",\n") ++
        "  \"cookie\": \"" ++ sepJoin ";" st.2.1 ++ "\""
  json_str ++ "\n\x7d"

/-- Source `get_header_value`. -/
def get_header_value (headers : Option Headers) (key : String) : Option String :=
  headers.bind fun v =>
    (v.items.find? (fun header => header.name = key)).map (fun header => header.value)

/-- Source `extract_mime`. -/
def extract_mime (headers : Option Headers) : String :=
  match get_header_value headers "content-type" with
  | some v =>
    match splitOnce v ';' with
    | some (a, _) => a.trim
    | none => v
  | none => ""

/-! ## Transaction record operations -/

/-- Source `Traffic::new`; the process-wide atomic id is passed in as `gid`. -/
def Traffic.new (gid : Nat) (uri method session_id : String) : Traffic :=
  { gid := gid
    session_id := session_id
    uri := uri
    method := method
    transaction_state := TransactionState.Pending
    req_headers := none
    req_body_file := none
    req_body_hex := none
    status := none
    http_version := none
    res_headers := none
    res_body_file := none
    res_body_size := none
    res_body_hex := none
    start_time := none
    end_time := none
    websocket_id := none
    error := none
    valid := true }

/-- Source `Traffic::oneline`. -/
def Traffic.oneline (t : Traffic) : String :=
  t.method ++ " " ++ t.uri ++
    (match t.status with
     | some status => " " ++ toString status
     | none => "")

/-- Source `Traffic::time`: `whole_milliseconds() as u64` wraps modulo 2^64. -/
def Traffic.time (t : Traffic) : Option Nat :=
  match t.end_time, t.start_time with
  | some end_time, some start_time => some (((end_time - start_time) % (2 ^ 64)).toNat)
  | _, _ => none

/-- Source `Traffic::done_res_body`; `now` is the clock reading taken when the
branch stamps `end_time`. -/
def Traffic.done_res_body (t : Traffic) (raw_size : Nat) (now : Int) : Traffic :=
  let t := if raw_size = 0 then { t with res_body_file := none } else t
  if t.error = none then
    { t with end_time := some now, res_body_size := some raw_size }
  else t

/-- Source `Traffic::uncompress_res_file`.  The `Result` of the external
decompress-to-file call is discarded by the source (`let _ = ...`), which the
`let _ :=` mirrors. -/
def Traffic.uncompress_res_file (env : Env) (t : Traffic) : Traffic :=
  match t.res_body_file with
  | none => t
  | some path =>
    match findEncodingStrip env.encoding_exts path with
    | none => t
    | some (new_path, encoding) =>
      let _ := env.uncompress_file encoding path new_path
      { t with res_body_file := some new_path }

/-- Source `Traffic::bodies`: the response path loses a trailing `.enc.gz` (7 bytes,
all ASCII, so char-level take agrees with the source's byte slice). -/
def Traffic.bodies (env : Env) (t : Traffic) (binary_in_base64 : Bool) :
    Option Body × Option Body :=
  let res_file_path : Option String :=
    match t.res_body_file with
    | some path =>
      if endsWithStr path ".enc.gz" then some ⟨path.data.take (path.data.length - 7)⟩
      else some path
    | none => none
  (Body.read env t.req_body_file binary_in_base64,
   Body.read env res_file_path binary_in_base64)

/-! ## Markdown rendering -/

/-- Source `render_header`. -/
def render_header (title : String) (headers : Headers) : String :=
  let value := sepJoin "\n" (headers.items.map (fun header => header.name ++ ": " ++ header.value))
  title ++ "\n```\n" ++ value ++ "\n```"

/-- Source `render_body`. -/
def render_body (env : Env) (title : String) (body : Body) (headers : Option Headers) :
    String :=
  let content_type := extract_mime headers
  if body.is_utf8 then
    title ++ "\n```" ++ env.to_md_lang content_type ++ "\n" ++ body.value ++ "\n```"
  else
    title ++ "\n\n[BINARY DATA](" ++ body.value ++ ")"

/-- Source `render_error`. -/
def render_error (error : String) : String :=
  if error.contains '\n' then "ERROR\n```\n" ++ error ++ "\n```"
  else "ERROR: " ++ error

/-- Source `Traffic::markdown`. -/
def Traffic.markdown (env : Env) (t : Traffic) : String :=
  let bodies := Traffic.bodies env t false
  let lines : List String :=
    ["\n# " ++ Traffic.oneline t]
      ++ (match t.req_headers with
          | some headers => [render_header "REQUEST HEADERS" headers]
          | none => [])
      ++ (match bodies.1 with
          | some body => [render_body env "REQUEST BODY" body t.req_headers]
          | none => [])
      ++ (match t.res_headers with
          | some headers => [render_header "RESPONSE HEADERS" headers]
          | none => [])
      ++ (match bodies.2 with
          | some body => [render_body env "RESPONSE BODY" body t.res_headers]
          | none => [])
      ++ (match t.error with
          | some error => [render_error error]
          | none => [])
  sepJoin "\n\n" lines

/-! ## HAR export -/

/-- Wrapping `u64 as i64` / `u64 as isize` (64-bit targets). -/
def i64OfU64 (n : Nat) : Int :=
  if n < 2 ^ 63 then (n : Int) else (n : Int) - 2 ^ 64

/-- Source `har_size`. -/
def har_size (size : Option Nat) (default_value : Int) : Int :=
  match size with
  | some v => i64OfU64 v
  | none => default_value

/-- Source `har_headers`. -/
def har_headers (headers : Option Headers) : Json :=
  match headers with
  | some hs =>
    Json.arr (hs.items.map fun header =>
      Json.obj [("name", Json.str header.name), ("value", Json.str header.value)])
  | none => Json.arr []

/-- Source `har_query_string` (the `url` crate parse is the `url_query` oracle). -/
def har_query_string (env : Env) (url : String) : Json :=
  match env.url_query url with
  | some pairs =>
    Json.arr (pairs.map fun p =>
      Json.obj [("name", Json.str p.1), ("value", Json.str p.2)])
  | none => Json.arr []

/-- Source `har_req_cookies`. -/
def har_req_cookies (headers : Option Headers) : Json :=
  match headers with
  | some hs =>
    Json.arr
      (((((hs.items.filter (fun header => header.name = "cookie")).map
            (fun header => (header.value.splitOn ";").map String.trim)).flatten).filterMap
        fun value =>
          (splitOnce value '=').map fun p =>
            Json.obj [("name", Json.str p.1), ("value", Json.str p.2)]))
  | none => Json.arr []

/-- Source `har_req_body`. -/
def har_req_body (body : Option Body) (headers : Option Headers) : Json :=
  let content_type := (get_header_value headers "content-type").getD ""
  match body with
  | some body => Json.obj [("mimeType", Json.str content_type), ("text", Json.str body.value)]
  | none => Json.obj [("mimeType", Json.str content_type), ("text", Json.str "")]

/-- Source `har_res_body`.  `size` serializes the raw `u64`; `compression` is the
`isize` difference of the two wrapped casts. -/
def har_res_body (body : Option Body) (raw_size : Nat) (headers : Option Headers) :
    Json :=
  let content_type := (get_header_value headers "content-type").getD ""
  match body with
  | some body =>
    let value := Json.obj
      [("size", Json.num (Int.ofNat raw_size)),
       ("mimeType", Json.str content_type),
       ("text", Json.str body.value)]
    let value :=
      if ¬ body.is_utf8 then value.setField "encoding" (Json.str "base64") else value
    value.setField "compression" (Json.num (i64OfU64 body.size - i64OfU64 raw_size))
  | none =>
    Json.obj
      [("size", Json.num 0), ("mimeType", Json.str content_type), ("text", Json.str "")]

/-- Source `har_res_cookies` (the `cookie` crate parse is the `cookie_parse` oracle). -/
def har_res_cookies (env : Env) (headers : Option Headers) : Json :=
  match headers with
  | some hs =>
    Json.arr ((hs.items.filter (fun header => header.name = "set-cookie")).filterMap
      fun header =>
        (env.cookie_parse header.value).map fun c =>
          let j := Json.obj [("name", Json.str c.name), ("value", Json.str c.value)]
          let j := match c.path with
            | some v => j.setField "path" (Json.str v)
            | none => j
          let j := match c.domain with
            | some v => j.setField "domain" (Json.str v)
            | none => j
          let j := match c.expires with
            | some v => j.setField "expires" (Json.str v)
            | none => j
          let j := match c.http_only with
            | some v => j.setField "httpOnly" (Json.bool v)
            | none => j
          match c.secure with
          | some v => j.setField "secure" (Json.bool v)
          | none => j)
  | none => Json.arr []

/-- The entry value built by `Traffic::har_entry` (the body of the final
`Some(json!({...}))`). -/
def har_entry_val (env : Env) (t : Traffic) : Json :=
  let bodies := Traffic.bodies env t true
  let http_version := t.http_version.getD ""
  let request := Json.obj
    [("method", Json.str t.method),
     ("url", Json.str t.uri),
     ("httpVersion", Json.str http_version),
     ("cookies", har_req_cookies t.req_headers),
     ("headers", har_headers t.req_headers),
     ("queryString", har_query_string env t.uri),
     ("postData", har_req_body bodies.1 t.req_headers),
     ("headersSize", Json.num (har_size (t.req_headers.map (fun v => v.size)) 0)),
     ("bodySize", Json.num (har_size (bodies.1.map (fun v => v.size)) 0))]
  let response := Json.obj
    [("status", Json.num (Int.ofNat (t.status.getD 0))),
     ("statusText", Json.str ""),
     ("httpVersion", Json.str http_version),
     ("cookies", har_res_cookies env t.res_headers),
     ("headers", har_headers t.res_headers),
     ("content", har_res_body bodies.2 (t.res_body_size.getD 0) t.res_headers),
     ("redirectURL", Json.str ((get_header_value t.res_headers "location").getD "")),
     ("headersSize", Json.num (har_size (t.res_headers.map (fun v => v.size)) (-1))),
     ("bodySize", Json.num (har_size t.res_body_size (-1)))]
  Json.obj
    [("startedDateTime",
      match t.start_time.bind env.format_rfc3339 with
      | some s => Json.str s
      | none => Json.null),
     ("time", Json.num (match Traffic.time t with
       | some v => i64OfU64 v
       | none => -1)),
     ("request", request),
     ("response", response),
     ("cache", Json.obj []),
     ("timings", Json.obj
       [("connect", Json.num (-1)),
        ("ssl", Json.num (-1)),
        ("send", Json.num (-1)),
        ("receive", Json.num (-1)),
        ("wait", Json.num (-1))])]

/-- Source `Traffic::har_entry`: unconditionally `Some`. -/
def Traffic.har_entry (env : Env) (t : Traffic) : Option Json :=
  some (har_entry_val env t)

/-- Source `wrap_entries`. -/
def wrap_entries (env : Env) (entries : List Json) : Json :=
  Json.obj
    [("log", Json.obj
      [("version", Json.str "1.2"),
       ("creator", Json.obj
         [("name", Json.str "ez-shark"),
          ("version", Json.str env.cargo_pkg_version),
          ("comment", Json.str "")]),
       ("pages", Json.arr []),
       ("entries", Json.arr entries)])]

/-- Source `Traffic::har`. -/
def Traffic.har (env : Env) (t : Traffic) : Json :=
  wrap_entries env
    (match Traffic.har_entry env t with
     | some v => [v]
     | none => [])

/-! ## cURL export -/

/-- Source `escape_single_quote`: each single quote becomes quote-backslash-quote-quote. -/
def escape_single_quote (v : String) : String :=
  strReplaceS v "\x27" "\x27\\\x27\x27"

/-- Source `Traffic::curl`. -/
def Traffic.curl (env : Env) (t : Traffic) : String :=
  let req_body := Body.read env t.req_body_file false
  let output := "curl " ++ t.uri
  let output := if t.method ≠ "GET" then output ++ " \\\n  -X " ++ t.method else output
  let items := match t.req_headers with
    | some headers => headers.items
    | none => []
  let output := items.foldl
    (fun acc header =>
      if header.name = "content-length" ∨ header.name = "host" then acc
      else acc ++ " \\\n  -H \x27" ++ header.name ++ ": " ++
        escape_single_quote header.value ++ "\x27")
    output
  match req_body with
  | some body =>
    let value := env.shell_quote body.value
    if body.is_utf8 then output ++ " \\\n  -d " ++ value
    else output ++ " \\\n  -t " ++ value
  | none => output

/-! ## Structured JSON export and dispatch -/

/-- Serde serialization of a resolved `Body` (field order is declaration
order). -/
def json_of_body (b : Body) : Json :=
  Json.obj
    [("encode", Json.str b.encode),
     ("value", Json.str b.value),
     ("size", Json.num (Int.ofNat b.size))]

def json_of_opt_body : Option Body → Json
  | some b => json_of_body b
  | none => Json.null

/-- Source `Traffic::json`: the serde-serialized record with the `req_body` /
`res_body` fields overlaid by the resolved bodies. -/
def Traffic.json (env : Env) (t : Traffic) : Json :=
  let bodies := Traffic.bodies env t true
  ((env.traffic_to_json t).setField "req_body" (json_of_opt_body bodies.1)).setField
    "res_body" (json_of_opt_body bodies.2)

/-- Source `Traffic::export`.  The string-literal `match` of the source is written
as the equivalent comparison chain; `json_pretty` models
`serde_json::to_string_pretty` with its error propagated by `?`. -/
def Traffic.export (env : Env) (t : Traffic) (format : String) :
    Except String (String × String) :=
  if format = "markdown" then
    Except.ok (Traffic.markdown env t, "text/markdown; charset=UTF-8")
  else if format = "har" then
    match env.json_pretty (Traffic.har env t) with
    | Except.ok s => Except.ok (s, "application/json; charset=UTF-8")
    | Except.error e => Except.error e
  else if format = "curl" then
    Except.ok (Traffic.curl env t, "text/plain; charset=UTF-8")
  else if format = "req-body" ∨ format = "res-body" then
    match
      (if format = "req-body" then Body.read env t.req_body_file false
       else Body.read env t.res_body_file false) with
    | some body => Except.ok (body.value, "text/plain; charset=UTF-8")
    | none => Except.error ("No " ++ format ++ " data")
  else if format = "" then
    match env.json_pretty (Traffic.json env t) with
    | Except.ok s => Except.ok (s, "application/json; charset=UTF-8")
    | Except.error e => Except.error e
  else Except.error ("Unsupported format: " ++ format)

/-! ## Statement helpers (shapes referenced by the claim theorems) -/

/-- The `-H` fragment emitted by `Traffic::curl` for one kept header. -/
def curlHeaderFlag (header : Header) : String :=
  " \\\n  -H \x27" ++ header.name ++ ": " ++ escape_single_quote header.value ++ "\x27"

/-- The trailing `-d`/`-t` body fragment of `Traffic::curl` ("" when no
request body resolves). -/
def curlBodyPart (env : Env) (t : Traffic) : String :=
  match Body.read env t.req_body_file false with
  | some body =>
    if body.is_utf8 then " \\\n  -d " ++ env.shell_quote body.value
    else " \\\n  -t " ++ env.shell_quote body.value
  | none => ""

/-- The field text `Headers::to_json` emits for one non-cookie header. -/
def headerFieldStr (env : Env) (item : Header) : String :=
  let value := strReplaceS (strReplaceS item.value "\"" "\\\"") "\\\\" "\\"
  "  \"" ++ item.name ++ "\": " ++
    (if env.parse_f64 value ∨ value = "true" ∨ value = "false" ∨ value = "null"
     then value
     else "\"" ++ value ++ "\"")

/-- The full ordered field list of `Headers::to_json`: non-cookie fields in
arrival order, then the single synthesized cookie field (if any cookies). -/
def toJsonFields (env : Env) (items : List Header) : List String :=
  (items.filter (fun h => ¬ h.name = "cookie")).map (headerFieldStr env)
    ++ (if items.filter (fun h => h.name = "cookie") = [] then []
        else ["  \"cookie\": \"" ++
          sepJoin ";" ((items.filter (fun h => h.name = "cookie")).map
            (fun h => strReplaceS h.value "\"" "\\\"")) ++ "\""])

/-! ## Concrete fixtures for witnesses and counterexamples -/

/-- Modelled from the spec: the compressed-format suffix table
`ENCODING_EXTS` lives in `utils.rs`, outside the visible source; spec §6
names `.gz`/`.br`/`.deflate`-style suffixes mapped to decompression
algorithm identifiers. -/
def ENCODING_EXTS : List (String × String) :=
  [("gzip", ".gz"), ("br", ".br"), ("deflate", ".deflate")]

/-- A concrete environment with inert collaborators. -/
def envTrivial : Env :=
  { encoding_exts := ENCODING_EXTS
    uncompress_data := fun _ _ => none
    uncompress_file := fun _ _ _ => false
    fs_read := fun _ => none
    base64_encode := fun _ => "B64"
    add_data_url := fun s => "data:;base64," ++ s
    shell_quote := fun s => s
    parse_f64 := fun _ => false
    url_query := fun _ => none
    cookie_parse := fun _ => none
    format_rfc3339 := fun _ => none
    json_pretty := fun _ => Except.ok "\x7b\x7d"
    traffic_to_json := fun _ => Json.obj []
    to_md_lang := fun _ => ""
    cargo_pkg_version := "0.0.0" }

/-- Environment whose filesystem holds one plain (suffix-free) file
containing the single invalid-UTF-8 byte 0xFF. -/
def envPlainBinary : Env :=
  { envTrivial with fs_read := fun p => if p = "/data/body.bin" then some [255] else none }

/-- Environment whose decompressor yields the invalid-UTF-8 byte 0xFF for
any compressed file. -/
def envGzBinary : Env :=
  { envTrivial with uncompress_data := fun _ _ => some [255] }

/-- A freshly created record (no request/response events observed). -/
def trafficFresh : Traffic :=
  Traffic.new 1 "http://x/y?q=1" "GET" "s1"

/-- A record whose stored response body carries a recognized compressed
suffix. -/
def trafficGz : Traffic :=
  { trafficFresh with res_body_file := some "/tmp/res.gz" }

/-- A record with a prior error and previously-unset timing fields. -/
def trafficErr : Traffic :=
  { trafficFresh with error := some "boom", res_body_file := some "/tmp/res" }

/-- A record whose response body reference carries the `.enc.gz` suffix. -/
def trafficEnc : Traffic :=
  { trafficFresh with
    req_body_file := some "/tmp/req.enc.gz"
    res_body_file := some "/tmp/res.enc.gz" }

/-- Two set-cookie headers, as in the spec's merging example. -/
def headersSetCookie : Headers :=
  { items := [{ name := "set-cookie", value := "x=1" },
              { name := "set-cookie", value := "y=2" }]
    size := 0 }

/-! ## Helper lemmas -/

theorem string_append_assoc (a b c : String) : a ++ b ++ c = a ++ (b ++ c) := by
  apply String.ext
  simp [String.data_append, List.append_assoc]

theorem hexGo_length (fuel : Nat) (l : List Nat) (off : Nat) (hf : l.length ≤ fuel) :
    (hexGo fuel l off).length = (l.length + 15) / 16 := by
  induction fuel generalizing l off with
  | zero =>
    match l with
    | [] => simp [hexGo]
    | c :: rest => simp at hf
  | succ fuel ih =>
    match l with
    | [] => simp [hexGo]
    | c :: rest =>
      have hlen : ((c :: rest).drop 16).length ≤ fuel := by
        simp only [List.length_drop, List.length_cons]
        simp only [List.length_cons] at hf
        omega
      have h2 := ih ((c :: rest).drop 16) (off + 16) hlen
      simp only [hexGo, List.length_cons, List.length_drop] at h2 ⊢
      omega

theorem hexGo_getElem (fuel : Nat) (l : List Nat) (off i : Nat)
    (hf : l.length ≤ fuel) (h : i < (hexGo fuel l off).length) :
    (hexGo fuel l off)[i]? =
      some (BodyHex.new (off + 16 * i) ((l.drop (16 * i)).take 16)) := by
  induction fuel generalizing l off i with
  | zero =>
    match l with
    | [] => simp [hexGo] at h
    | c :: rest => simp at hf
  | succ fuel ih =>
    match l with
    | [] => simp [hexGo] at h
    | c :: rest =>
      match i with
      | 0 => simp [hexGo]
      | i + 1 =>
        simp only [hexGo, List.length_cons] at h
        have hlen : ((c :: rest).drop 16).length ≤ fuel := by
          simp only [List.length_drop, List.length_cons]
          simp only [List.length_cons] at hf
          omega
        have h' : i < (hexGo fuel ((c :: rest).drop 16) (off + 16)).length := by omega
        simp only [hexGo, List.getElem?_cons_succ]
        rw [ih _ _ _ hlen h', List.drop_drop]
        rw [show 16 + 16 * i = 16 * (i + 1) by ring,
            show off + 16 + 16 * i = off + 16 * (i + 1) by ring]

theorem charToNat_ofNat_lt (b : Nat) (hb : b < 0xd800) : (Char.ofNat b).toNat = b := by
  have hv : Nat.isValidChar b := Or.inl hb
  simp [Char.ofNat, hv, Char.ofNatAux, Char.toNat, UInt32.toNat, BitVec.toNat_ofNatLt]

theorem getD_map_viewChar (l : List Nat) (i : Nat) (h : i < l.length) :
    (l.map viewChar).getD i ' ' = viewChar (l.getD i 0) := by
  induction l generalizing i with
  | nil => simp at h
  | cons a as ih =>
    cases i with
    | zero => simp
    | succ j =>
      simp only [List.map_cons, List.getD_cons_succ]
      exact ih j (by simpa using h)

/-! ## Claim theorems -/

/-- C6: for every non-empty byte sequence of length n, hex formatting yields
exactly ⌈n/16⌉ rows; row i (0-based) has offset 16·i and holds 16 bytes
except the last row, which holds n mod 16 bytes (16 when n is a multiple of
16); each row's character view has exactly as many characters as the row has
bytes; and the string formatter is the same chunking applied to the string's
UTF-8 bytes. -/
theorem hex_rows_spec (bytes : List Nat) (hne : bytes ≠ []) :
    (bytes_to_hex_structs bytes).length = (bytes.length + 15) / 16
    ∧ (∀ i (h : i < (bytes_to_hex_structs bytes).length),
        ((bytes_to_hex_structs bytes).get ⟨i, h⟩).offset_address = 16 * i
        ∧ ((bytes_to_hex_structs bytes).get ⟨i, h⟩).hex.length =
            (if i + 1 = (bytes_to_hex_structs bytes).length then
               (if bytes.length % 16 = 0 then 16 else bytes.length % 16)
             else 16)
        ∧ ((bytes_to_hex_structs bytes).get ⟨i, h⟩).character_view.data.length =
            ((bytes_to_hex_structs bytes).get ⟨i, h⟩).hex.length)
    ∧ (∀ s : String, string_to_body_hex s = bytes_to_hex_structs (strBytes s)) := by
  have hlen : (bytes_to_hex_structs bytes).length = (bytes.length + 15) / 16 :=
    hexGo_length bytes.length bytes 0 (le_refl _)
  refine ⟨hlen, ?_, fun s => rfl⟩
  intro i h
  have h1 := hexGo_getElem bytes.length bytes 0 i (le_refl _) h
  have h2 : (bytes_to_hex_structs bytes)[i]? =
      some ((bytes_to_hex_structs bytes).get ⟨i, h⟩) := by
    simp [List.getElem?_eq_getElem h, List.get_eq_getElem]
  have hget : (bytes_to_hex_structs bytes).get ⟨i, h⟩ =
      BodyHex.new (0 + 16 * i) ((bytes.drop (16 * i)).take 16) :=
    Option.some.inj (h2.symm.trans h1)
  rw [hget]
  refine ⟨by simp [BodyHex.new], ?_, by simp [BodyHex.new]⟩
  simp only [BodyHex.new, List.length_take, List.length_drop]
  rw [hlen]
  have hn : 0 < bytes.length := List.length_pos.mpr hne
  have hi : i < (bytes.length + 15) / 16 := hlen ▸ h
  split_ifs <;> omega

/-- C6 witness: a concrete 18-byte input produces 2 rows with the expected
offsets. -/
theorem hex_rows_spec_witness :
    (bytes_to_hex_structs (List.range 18)).length = ((List.range 18).length + 15) / 16
    ∧ ((bytes_to_hex_structs (List.range 18)).get ⟨1, by decide⟩).offset_address = 16 * 1 := by
  refine ⟨(hex_rows_spec (List.range 18) (by decide)).1, ?_⟩
  exact ((hex_rows_spec (List.range 18) (by decide)).2.1 1 (by decide)).1

/-- C7: in every hex row, the character view maps byte b at position i to the
character with code b when 0x20 ≤ b ≤ 0x7E and to a literal space character
otherwise, and has exactly one character per byte. -/
theorem character_view_spec (off : Nat) (hex : List Nat) (i : Nat) (h : i < hex.length) :
    (BodyHex.new off hex).character_view.data.length = hex.length
    ∧ (0x20 ≤ hex.getD i 0 ∧ hex.getD i 0 ≤ 0x7E →
        ((BodyHex.new off hex).character_view.data.getD i ' ').toNat = hex.getD i 0)
    ∧ (¬ (0x20 ≤ hex.getD i 0 ∧ hex.getD i 0 ≤ 0x7E) →
        (BodyHex.new off hex).character_view.data.getD i ' ' = ' ') := by
  have hdata : (BodyHex.new off hex).character_view.data = hex.map viewChar := rfl
  refine ⟨by simp [hdata], ?_, ?_⟩
  · intro hrange
    rw [hdata, getD_map_viewChar hex i h]
    simp only [viewChar]
    rw [if_pos hrange]
    exact charToNat_ofNat_lt _ (by omega)
  · intro hrange
    rw [hdata, getD_map_viewChar hex i h]
    simp only [viewChar]
    rw [if_neg hrange]

/-- C7 witness: byte 0x41 renders as code 0x41, byte 0x01 renders as a
space. -/
theorem character_view_spec_witness :
    (BodyHex.new 0 [65, 1]).character_view.data.length = 2
    ∧ ((BodyHex.new 0 [65, 1]).character_view.data.getD 0 ' ').toNat = 65
    ∧ (BodyHex.new 0 [65, 1]).character_view.data.getD 1 ' ' = ' ' := by
  refine ⟨(character_view_spec 0 [65, 1] 0 (by decide)).1, ?_, ?_⟩
  · exact ((character_view_spec 0 [65, 1] 0 (by decide)).2.1 (by decide)).trans (by decide)
  · exact (character_view_spec 0 [65, 1] 1 (by decide)).2.2 (by decide)

/-- C1 (amended): resolving a body in non-base64 mode yields a `path`-tagged
Body holding the raw file path only when the path carries a recognized
compressed suffix and the decompressed content is invalid UTF-8; for a plain
(suffix-free) path whose raw content is invalid UTF-8, the resolver instead
inlines the content as a base64 Body. -/
theorem body_read_nonutf8_spec (env : Env) (path : String) :
    (∀ encoding data,
      findEncoding env.encoding_exts path = some encoding →
      env.uncompress_data encoding path = some data →
      data ≠ [] →
      utf8Decode data = none →
      Body.read env (some path) false = some (Body.path path))
    ∧ (∀ data,
      findEncoding env.encoding_exts path = none →
      env.fs_read path = some data →
      utf8Decode data = none →
      Body.read env (some path) false =
        some { encode := "base64"
               value := env.add_data_url (env.base64_encode data)
               size := data.length }) := by
  constructor
  · intro encoding data h1 h2 h3 h4
    simp [Body.read, h1, h2, h3, h4]
  · intro data h1 h2 h3
    simp [Body.read, h1, h2, h3, Body.bytes]

/-- C1 witness: a `.gz` path whose decompressed bytes are invalid UTF-8
resolves to a path Body; a plain path with the same bytes resolves to a
base64 Body. -/
theorem body_read_nonutf8_spec_witness :
    Body.read envGzBinary (some "/x.gz") false = some (Body.path "/x.gz")
    ∧ Body.read envPlainBinary (some "/data/body.bin") false =
        some { encode := "base64", value := "data:;base64,B64", size := 1 } := by
  constructor
  · exact (body_read_nonutf8_spec envGzBinary "/x.gz").1 "gzip" [255]
      (by decide) rfl (by decide) (by decide)
  · exact (body_read_nonutf8_spec envPlainBinary "/data/body.bin").2 [255]
      (by decide) (by decide) (by decide)

/-- C1 counterexample: a plain body file whose content is the invalid-UTF-8
byte 0xFF resolves, with binary_as_base64 = false, to a base64 Body — its
encoding tag is not `path`. -/
theorem body_read_nonutf8_counterexample :
    Body.read envPlainBinary (some "/data/body.bin") false =
      some { encode := "base64", value := "data:;base64,B64", size := 1 }
    ∧ (Body.read envPlainBinary (some "/data/body.bin") false).map Body.encode ≠
        some "path" := by
  constructor <;> decide

/-- C2 (amended): when the stored response body path carries a recognized
compressed suffix, uncompress_res_file updates the stored reference to the
suffix-stripped sibling path unconditionally: the outcome of the external
decompress-to-file call is ignored, so the update also happens when
decompression fails. -/
theorem uncompress_res_file_spec (env : Env) (t : Traffic)
    (path new_path encoding : String)
    (h1 : t.res_body_file = some path)
    (h2 : findEncodingStrip env.encoding_exts path = some (new_path, encoding)) :
    (Traffic.uncompress_res_file env t).res_body_file = some new_path
    ∧ ∀ f, Traffic.uncompress_res_file { env with uncompress_file := f } t =
        Traffic.uncompress_res_file env t := by
  constructor
  · simp [Traffic.uncompress_res_file, h1, h2]
  · intro f
    simp [Traffic.uncompress_res_file, h1, h2]

/-- C2 witness: a `.gz` response reference is replaced by the stripped
sibling path (the trivial environment's decompressor always fails). -/
theorem uncompress_res_file_spec_witness :
    (Traffic.uncompress_res_file envTrivial trafficGz).res_body_file = some "/tmp/res" :=
  (uncompress_res_file_spec envTrivial trafficGz "/tmp/res.gz" "/tmp/res" "gzip"
    rfl (by decide)).1

/-- C2 counterexample: with a decompress-to-file routine that always fails
(`envTrivial.uncompress_file` is constantly false), the stored compressed
reference still loses its suffix — the original `.gz` path does not stand. -/
theorem uncompress_res_file_counterexample :
    (Traffic.uncompress_res_file envTrivial trafficGz).res_body_file = some "/tmp/res"
    ∧ (Traffic.uncompress_res_file envTrivial trafficGz).res_body_file ≠
        some "/tmp/res.gz" := by
  constructor <;> decide

/-- C3 (amended): the HAR export always wraps exactly one entry in the
standard log envelope — `har_entry` is unconditionally `some`, even for a
record in which no data exists. -/
theorem har_single_entry (env : Env) (t : Traffic) :
    jGet (jGet (Traffic.har env t) "log") "entries" = Json.arr [har_entry_val env t]
    ∧ Traffic.har env t = wrap_entries env [har_entry_val env t] := by
  exact ⟨rfl, rfl⟩

/-- C3 counterexample: a freshly created record with no request/response
data still HAR-exports one entry — `log.entries` is not the empty list. -/
theorem har_empty_entries_counterexample :
    jGet (jGet (Traffic.har envTrivial trafficFresh) "log") "entries" ≠ Json.arr [] := by
  intro hcontra
  have h1 : jGet (jGet (Traffic.har envTrivial trafficFresh) "log") "entries" =
      Json.arr [har_entry_val envTrivial trafficFresh] := rfl
  rw [h1] at hcontra
  exact absurd (Json.arr.inj hcontra) (by simp)

/-- C4: finish_response_body(0) clears the response body file reference;
with an error recorded before the call, end_time and res_body_size are left
untouched (in particular unset when they were unset); with no error
recorded, end_time is stamped with the clock reading and res_body_size with
the raw size. -/
theorem done_res_body_spec (t : Traffic) (raw_size : Nat) (now : Int) :
    (raw_size = 0 → (Traffic.done_res_body t raw_size now).res_body_file = none)
    ∧ (t.error ≠ none →
        (Traffic.done_res_body t raw_size now).end_time = t.end_time
        ∧ (Traffic.done_res_body t raw_size now).res_body_size = t.res_body_size)
    ∧ (t.error ≠ none ∧ t.end_time = none ∧ t.res_body_size = none →
        (Traffic.done_res_body t raw_size now).end_time = none
        ∧ (Traffic.done_res_body t raw_size now).res_body_size = none)
    ∧ (t.error = none →
        (Traffic.done_res_body t raw_size now).end_time = some now
        ∧ (Traffic.done_res_body t raw_size now).res_body_size = some raw_size) := by
  refine ⟨?_, ?_, ?_, ?_⟩
  · intro hz
    by_cases he : t.error = none <;> simp [Traffic.done_res_body, hz, he]
  · intro he
    have he' : ¬ t.error = none := he
    by_cases hz : raw_size = 0 <;> simp [Traffic.done_res_body, hz, he']
  · rintro ⟨he, het, hes⟩
    have he' : ¬ t.error = none := he
    by_cases hz : raw_size = 0 <;> simp [Traffic.done_res_body, hz, he', het, hes]
  · intro he
    by_cases hz : raw_size = 0 <;> simp [Traffic.done_res_body, hz, he]

/-- C4 witness: finish(0) clears the reference; with a prior error the
timing fields stay unset; without one they are stamped. -/
theorem done_res_body_spec_witness :
    (Traffic.done_res_body trafficErr 0 5).res_body_file = none
    ∧ (Traffic.done_res_body trafficErr 7 5).end_time = none
    ∧ (Traffic.done_res_body trafficErr 7 5).res_body_size = none
    ∧ (Traffic.done_res_body trafficFresh 7 5).end_time = some 5
    ∧ (Traffic.done_res_body trafficFresh 7 5).res_body_size = some 7 := by
  have h3 := (done_res_body_spec trafficErr 7 5).2.2.1 ⟨by decide, by decide, by decide⟩
  have h4 := (done_res_body_spec trafficFresh 7 5).2.2.2 (by decide)
  exact ⟨(done_res_body_spec trafficErr 0 5).1 rfl, h3.1, h3.2, h4.1, h4.2⟩

/-- C5: export with a format selector outside the six supported values fails
with an "Unsupported format" condition; req-body (resp. res-body) with an
absent resolved body fails with a "No ... data" condition; and every
successful export returns the rendered text together with one of the fixed
MIME content types. -/
theorem export_dispatch_spec (env : Env) (t : Traffic) :
    (∀ format, ¬ format ∈ ["", "markdown", "har", "curl", "req-body", "res-body"] →
        Traffic.export env t format = Except.error ("Unsupported format: " ++ format))
    ∧ (Body.read env t.req_body_file false = none →
        Traffic.export env t "req-body" = Except.error "No req-body data")
    ∧ (Body.read env t.res_body_file false = none →
        Traffic.export env t "res-body" = Except.error "No res-body data")
    ∧ (∀ format s m, Traffic.export env t format = Except.ok (s, m) →
        m = "text/markdown; charset=UTF-8" ∨ m = "application/json; charset=UTF-8"
          ∨ m = "text/plain; charset=UTF-8") := by
  refine ⟨?_, ?_, ?_, ?_⟩
  · intro format hmem
    simp only [List.mem_cons, List.not_mem_nil, or_false, not_or] at hmem
    obtain ⟨h0, h1, h2, h3, h4, h5⟩ := hmem
    simp [Traffic.export, h0, h1, h2, h3, h4, h5]
  · intro hnone
    simp [Traffic.export, hnone]
  · intro hnone
    simp [Traffic.export, hnone]
  · intro format s m hok
    simp only [Traffic.export] at hok
    by_cases h1 : format = "markdown"
    · rw [if_pos h1] at hok
      simp only [Except.ok.injEq, Prod.mk.injEq] at hok
      exact Or.inl hok.2.symm
    rw [if_neg h1] at hok
    by_cases h2 : format = "har"
    · rw [if_pos h2] at hok
      cases hjp : env.json_pretty (Traffic.har env t) with
      | ok s' =>
        rw [hjp] at hok
        simp only [Except.ok.injEq, Prod.mk.injEq] at hok
        exact Or.inr (Or.inl hok.2.symm)
      | error e =>
        rw [hjp] at hok
        simp at hok
    rw [if_neg h2] at hok
    by_cases h3 : format = "curl"
    · rw [if_pos h3] at hok
      simp only [Except.ok.injEq, Prod.mk.injEq] at hok
      exact Or.inr (Or.inr hok.2.symm)
    rw [if_neg h3] at hok
    by_cases h4 : format = "req-body" ∨ format = "res-body"
    · rw [if_pos h4] at hok
      by_cases h5 : format = "req-body"
      · rw [if_pos h5] at hok
        cases hbody : Body.read env t.req_body_file false with
        | some body =>
          rw [hbody] at hok
          simp only [Except.ok.injEq, Prod.mk.injEq] at hok
          exact Or.inr (Or.inr hok.2.symm)
        | none =>
          rw [hbody] at hok
          simp at hok
      · rw [if_neg h5] at hok
        cases hbody : Body.read env t.res_body_file false with
        | some body =>
          rw [hbody] at hok
          simp only [Except.ok.injEq, Prod.mk.injEq] at hok
          exact Or.inr (Or.inr hok.2.symm)
        | none =>
          rw [hbody] at hok
          simp at hok
    rw [if_neg h4] at hok
    by_cases h6 : format = ""
    · rw [if_pos h6] at hok
      cases hjp : env.json_pretty (Traffic.json env t) with
      | ok s' =>
        rw [hjp] at hok
        simp only [Except.ok.injEq, Prod.mk.injEq] at hok
        exact Or.inr (Or.inl hok.2.symm)
      | error e =>
        rw [hjp] at hok
        simp at hok
    rw [if_neg h6] at hok
    simp at hok

/-- C5 witness: a bogus selector fails with the unsupported-format message,
and req-body on a record with no request body fails with the no-data
message. -/
theorem export_dispatch_spec_witness :
    Traffic.export envTrivial trafficFresh "bogus" =
      Except.error "Unsupported format: bogus"
    ∧ Traffic.export envTrivial trafficFresh "req-body" =
      Except.error "No req-body data" := by
  constructor
  · exact (export_dispatch_spec envTrivial trafficFresh).1 "bogus" (by decide)
  · exact (export_dispatch_spec envTrivial trafficFresh).2.1 (by decide)

/-- C10: for every export that resolves both bodies through
`Traffic::bodies`, when the stored response body path ends with the literal
suffix ".enc.gz" the response body is read from the sibling path with those
7 characters stripped, while the request body path is read exactly as
stored, with no stripping. -/
theorem bodies_enc_gz_strip (env : Env) (t : Traffic) (b : Bool) (pre : String)
    (h : t.res_body_file = some (pre ++ ".enc.gz")) :
    Traffic.bodies env t b =
      (Body.read env t.req_body_file b, Body.read env (some pre) b) := by
  have hsuffix : endsWithStr (pre ++ ".enc.gz") ".enc.gz" = true := by
    simp only [endsWithStr, String.data_append, List.isSuffixOf_iff_suffix]
    exact List.suffix_append _ _
  have hstrip :
      (⟨(pre ++ ".enc.gz").data.take ((pre ++ ".enc.gz").data.length - 7)⟩ : String) = pre := by
    apply String.ext
    simp only [String.data_append, List.length_append]
    rw [show pre.data.length + (".enc.gz").data.length - 7 = pre.data.length by
      simp]
    exact List.take_left pre.data _
  simp [Traffic.bodies, h, hsuffix, hstrip]

/-- C10 witness: a record storing `/tmp/res.enc.gz` reads its response body
from `/tmp/res` and its request body from the stored path unchanged. -/
theorem bodies_enc_gz_strip_witness :
    Traffic.bodies envTrivial trafficEnc true =
      (Body.read envTrivial trafficEnc.req_body_file true,
       Body.read envTrivial (some "/tmp/res") true) :=
  bodies_enc_gz_strip envTrivial trafficEnc true "/tmp/res" (by decide)

theorem sepJoin_append_singleton (sep : String) (xs : List String) (y : String) :
    sepJoin sep (xs ++ [y]) = (if xs.isEmpty then y else sepJoin sep xs ++ sep ++ y) := by
  cases xs with
  | nil => simp [sepJoin]
  | cons x xs =>
    show (xs ++ [y]).foldl (fun acc y => acc ++ sep ++ y) x = _
    rw [List.foldl_append]
    simp [sepJoin]

theorem curl_foldl (items : List Header) (out : String) :
    items.foldl
      (fun acc header =>
        if header.name = "content-length" ∨ header.name = "host" then acc
        else acc ++ " \\\n  -H \x27" ++ header.name ++ ": " ++
          escape_single_quote header.value ++ "\x27")
      out
    = out ++ concatStrs
        ((items.filter (fun h => ¬ (h.name = "content-length" ∨ h.name = "host"))).map
          curlHeaderFlag) := by
  induction items generalizing out with
  | nil => simp [concatStrs]
  | cons h hs ih =>
    by_cases hskip : h.name = "content-length" ∨ h.name = "host"
    · rw [List.foldl_cons, if_pos hskip, ih]
      have hfilter :
          (h :: hs).filter (fun h => ¬ (h.name = "content-length" ∨ h.name = "host"))
            = hs.filter (fun h => ¬ (h.name = "content-length" ∨ h.name = "host")) := by
        rcases hskip with h1 | h1 <;> simp [List.filter_cons, h1]
      rw [hfilter]
    · rw [List.foldl_cons, if_neg hskip, ih]
      have hfilter :
          (h :: hs).filter (fun h => ¬ (h.name = "content-length" ∨ h.name = "host"))
            = h :: hs.filter (fun h => ¬ (h.name = "content-length" ∨ h.name = "host")) := by
        obtain ⟨hn1, hn2⟩ := not_or.mp hskip
        simp [List.filter_cons, hn1, hn2]
      rw [hfilter, List.map_cons]
      simp only [concatStrs, curlHeaderFlag]
      simp [string_append_assoc]

theorem strReplaceF_singleton (q : Char) (rep : List Char) :
    ∀ (fuel : Nat) (v : List Char), v.length ≤ fuel →
      strReplaceF fuel v [q] rep =
        (v.map (fun c => if c = q then rep else [c])).flatten := by
  intro fuel
  induction fuel with
  | zero =>
    intro v hv
    match v with
    | [] => simp [strReplaceF]
    | c :: rest => simp at hv
  | succ fuel ih =>
    intro v hv
    match v with
    | [] => simp [strReplaceF]
    | c :: rest =>
      have hrest : rest.length ≤ fuel := by
        simp only [List.length_cons] at hv
        omega
      by_cases hc : c = q
      · simp only [strReplaceF]
        rw [if_pos ⟨by simp, by simp [List.isPrefixOf, hc]⟩]
        show rep ++ strReplaceF fuel rest [q] rep = _
        rw [ih rest hrest]
        simp [hc]
      · simp only [strReplaceF]
        rw [if_neg]
        · rw [ih rest hrest]
          simp [hc]
        · intro hcontra
          have h2 : ([q].isPrefixOf (c :: rest) : Bool) = true := hcontra.2
          simp [List.isPrefixOf] at h2
          exact hc h2.symm

theorem escape_single_quote_data (v : String) :
    (escape_single_quote v).data =
      (v.data.map (fun c =>
        if c = '\x27' then ['\x27', '\\', '\x27', '\x27'] else [c])).flatten :=
  strReplaceF_singleton '\x27' ['\x27', '\\', '\x27', '\x27'] v.data.length v.data
    (le_refl _)

/-- C8: the cURL export is exactly `curl <uri>`, then `-X <method>` exactly
when the method is not GET, then one `-H 'name: value'` flag per request
header in arrival order with headers named `content-length` or `host`
contributing no flag at all, then the body fragment; in every emitted header
value each single quote is rewritten to quote-backslash-quote-quote and
every other character is kept unchanged. -/
theorem curl_shape_spec (env : Env) (t : Traffic) :
    Traffic.curl env t =
      "curl " ++ t.uri
        ++ (if t.method = "GET" then "" else " \\\n  -X " ++ t.method)
        ++ concatStrs
          (((match t.req_headers with
             | some headers => headers.items
             | none => []).filter
              (fun h : Header => ¬ (h.name = "content-length" ∨ h.name = "host"))).map
            curlHeaderFlag)
        ++ curlBodyPart env t
    ∧ ∀ v : String, (escape_single_quote v).data =
        (v.data.map (fun c =>
          if c = '\x27' then ['\x27', '\\', '\x27', '\x27'] else [c])).flatten := by
  constructor
  · simp only [Traffic.curl]
    rw [curl_foldl]
    cases hb : Body.read env t.req_body_file false with
    | none =>
      simp only [curlBodyPart, hb]
      by_cases hm : t.method = "GET" <;> simp [hm, string_append_assoc]
    | some body =>
      simp only [curlBodyPart, hb]
      by_cases hut : body.is_utf8 = true <;> by_cases hm : t.method = "GET" <;>
        simp [hm, hut, string_append_assoc]
  · exact escape_single_quote_data

theorem toJson_foldl (env : Env) (items : List Header) :
    ∀ (fields cookies : List String),
      items.foldl (toJsonStep env) ("\x7b\n" ++ sepJoin ",\n" fields, cookies, fields.isEmpty)
        = ("\x7b\n" ++ sepJoin ",\n"
              (fields ++ (items.filter (fun h => ¬ h.name = "cookie")).map (headerFieldStr env)),
           cookies ++ (items.filter (fun h => h.name = "cookie")).map
              (fun h => strReplaceS h.value "\"" "\\\""),
           (fields ++ (items.filter (fun h => ¬ h.name = "cookie")).map
              (headerFieldStr env)).isEmpty) := by
  induction items with
  | nil => intro fields cookies; simp
  | cons item rest ih =>
    intro fields cookies
    by_cases hc : item.name = "cookie"
    · have hf1 : (item :: rest).filter (fun h => ¬ h.name = "cookie")
          = rest.filter (fun h => ¬ h.name = "cookie") := by
        simp [List.filter_cons, hc]
      have hf2 : (item :: rest).filter (fun h => h.name = "cookie")
          = item :: rest.filter (fun h => h.name = "cookie") := by
        simp [List.filter_cons, hc]
      rw [List.foldl_cons,
        show toJsonStep env ("\x7b\n" ++ sepJoin ",\n" fields, cookies, fields.isEmpty) item
          = ("\x7b\n" ++ sepJoin ",\n" fields,
             cookies ++ [strReplaceS item.value "\"" "\\\""], fields.isEmpty) by
          simp [toJsonStep, hc],
        ih fields (cookies ++ [strReplaceS item.value "\"" "\\\""]), hf1, hf2]
      simp [List.append_assoc]
    · have hf1 : (item :: rest).filter (fun h => ¬ h.name = "cookie")
          = item :: rest.filter (fun h => ¬ h.name = "cookie") := by
        simp [List.filter_cons, hc]
      have hf2 : (item :: rest).filter (fun h => h.name = "cookie")
          = rest.filter (fun h => h.name = "cookie") := by
        simp [List.filter_cons, hc]
      have hne : (fields ++ [headerFieldStr env item]).isEmpty = false := by
        cases fields <;> rfl
      have hfield :
          toJsonStep env ("\x7b\n" ++ sepJoin ",\n" fields, cookies, fields.isEmpty) item
            = ("\x7b\n" ++ sepJoin ",\n" (fields ++ [headerFieldStr env item]), cookies,
               (fields ++ [headerFieldStr env item]).isEmpty) := by
        simp only [toJsonStep, if_neg hc]
        rw [sepJoin_append_singleton, hne]
        cases hF : fields.isEmpty with
        | true =>
          have hfe : fields = [] := List.isEmpty_iff.mp hF
          subst hfe
          simp [sepJoin, headerFieldStr, string_append_assoc, -String.reduceAppend]
        | false =>
          simp only [if_neg (by simp [hF] : ¬ fields.isEmpty = true), Bool.false_eq_true]
          simp [headerFieldStr, string_append_assoc, -String.reduceAppend]
      rw [List.foldl_cons, hfield, ih (fields ++ [headerFieldStr env item]) cookies, hf1, hf2]
      simp [List.append_assoc]

/-- C9 (amended): the textual rendering of a header collection emits, inside
the braces, the non-cookie headers as fields in arrival order — each value
unquoted exactly when the f64 parse accepts the escaped value or it equals
true/false/null, quoted otherwise — and merges precisely the entries named
`cookie` (headers named `set-cookie` are rendered as ordinary fields, not
merged) into one synthesized cookie field whose value joins the individual
values with `;` and which is appended last. -/
theorem headers_to_json_shape (env : Env) (hs : Headers) :
    Headers.to_json env hs =
      "\x7b\n" ++ sepJoin ",\n" (toJsonFields env hs.items) ++ "\n\x7d"
    ∧ ∀ item : Header, headerFieldStr env item =
        "  \"" ++ item.name ++ "\": " ++
          (let value := strReplaceS (strReplaceS item.value "\"" "\\\"") "\\\\" "\\"
           if env.parse_f64 value ∨ value = "true" ∨ value = "false" ∨ value = "null"
           then value
           else "\"" ++ value ++ "\"") := by
  constructor
  · unfold Headers.to_json
    rw [show (("\x7b\n" : String), ([] : List String), true)
          = ("\x7b\n" ++ sepJoin ",\n" ([] : List String), ([] : List String),
             ([] : List String).isEmpty) from rfl,
        toJson_foldl]
    simp only [List.nil_append, List.append_nil]
    by_cases hC : hs.items.filter (fun h => h.name = "cookie") = []
    · simp [toJsonFields, hC, string_append_assoc]
    · have hC2 : ¬ (hs.items.filter (fun h => h.name = "cookie")).map
          (fun h => strReplaceS h.value "\"" "\\\"") = [] := by
        simpa using hC
      rw [if_neg hC2]
      simp only [toJsonFields]
      rw [if_neg hC, sepJoin_append_singleton]
      cases hF : ((hs.items.filter (fun h => ¬ h.name = "cookie")).map
          (headerFieldStr env)).isEmpty with
      | true =>
        have hnil : (hs.items.filter (fun h => ¬ h.name = "cookie")).map
            (headerFieldStr env) = [] := List.isEmpty_iff.mp hF
        rw [hnil]
        simp [sepJoin, string_append_assoc, -String.reduceAppend]
      | false =>
        simp [string_append_assoc, -String.reduceAppend]
  · intro item
    rfl

/-- C9 counterexample: two `set-cookie` entries are NOT merged into a
synthesized cookie field — they render as two ordinary quoted fields and no
merged `"cookie"` field appears. -/
theorem headers_to_json_set_cookie_counterexample :
    Headers.to_json envTrivial headersSetCookie =
      "\x7b\n  \"set-cookie\": \"x=1\",\n  \"set-cookie\": \"y=2\"\n\x7d"
    ∧ Headers.to_json envTrivial headersSetCookie ≠
      "\x7b\n  \"cookie\": \"x=1;y=2\"\n\x7d" := by
  constructor <;> decide

end EzShark
